import Mathlib

/-!
Verification of `src/util/FfmpegStreamingProcess.ts` from
homebridge-tuya-platform: a supervisor wrapping one ffmpeg subprocess.

The embedding follows the source file closely:

* `parseProgress` is the method of the same name, modelled as a pure
  function from the chunk text (as a `List Char`) to `Option FfmpegProgress`.
  JavaScript semantics that matter and are modelled explicitly:
  - `Map.get` on an absent key yields `undefined`; the TypeScript `!` is a
    type assertion with no runtime effect, so `parseInt(undefined)` and
    `parseFloat(undefined)` return `NaN` rather than throwing.  Only
    `undefined.trim()` (for `out_time` / `progress`) throws, and the
    surrounding `try/catch` turns that into `undefined` ("no report").
  - `line.split('=', 2)` splits on every `'='` and keeps the first two
    segments (the JS `limit` truncates; it does not keep the remainder).
  - JS numbers are modelled by `JsNum` (`nan`, signed infinity, or an exact
    rational); `parseInt` / `parseFloat` are modelled on the relevant ES
    grammar (whitespace skip, sign, `0x` prefix for `parseInt`, decimal
    mantissa and exponent and `Infinity` for `parseFloat`, longest valid
    prefix, `NaN` when no digits).

* The event-driven constructor body and `stop()` are modelled as a step
  function `step : Config → SupState → Event → SupState × List Effect`:
  each `Event` is one callback invocation (a stdout `data` chunk, a stderr
  `line`, a process `error`, the process `exit`, a call to `stop()`, or the
  armed kill timer firing), and the emitted `Effect` list records, in
  order, the observable effects (log calls, delegate calls, the ready
  callback, stdin writes, the SIGKILL).  State fields mirror the captured
  mutable variables: `started`, the pending `callback`, the `killTimeout`
  field (which `clearTimeout` cancels but does not clear), whether the
  timer is still pending, and `process.killed` (set only by
  `process.kill`).
-/

attribute [local semireducible] Rat.mul Rat.add Rat.inv Rat.sub

/-- JS whitespace characters relevant to `parseInt`/`parseFloat`/`trim`
(ASCII subset; the source never meets non-ASCII whitespace). -/
def jsWhite (c : Char) : Bool :=
  c = ' ' || c = '\t' || c = '\n' || c = '\r' || c = '\x0b' || c = '\x0c'

/-- A JavaScript number as far as this module observes it: `NaN`, a signed
infinity, or an exact value (the source only ever parses decimal text, so a
rational represents the parsed value exactly). -/
inductive JsNum where
  | nan : JsNum
  | inf : Bool → JsNum
  | num : ℚ → JsNum
  deriving DecidableEq, Repr

/-- `x > 0` on JS numbers: false for `NaN`, true for `+Infinity`. -/
def JsNum.gtZero : JsNum → Bool
  | .nan => false
  | .inf b => b
  | .num q => 0 < q

/-- Split a character list on a separator character (like `"a=b".split('=')`:
the result always has at least one element, and an empty input gives one
empty segment). -/
def splitOnChar (sep : Char) : List Char → List (List Char)
  | [] => [[]]
  | c :: cs =>
    let rest := splitOnChar sep cs
    if c = sep then [] :: rest
    else match rest with
      | [] => [[c]]
      | r :: rs => (c :: r) :: rs

/-- JS `line.split('=', 2)`: split on every `'='` and keep the first two
segments.  The second component is `none` when the line holds no `'='`
(then `split[1]` is `undefined`). -/
def splitEq2 (line : List Char) : List Char × Option (List Char) :=
  match splitOnChar '=' line with
  | [] => ([], none)
  | [k] => (k, none)
  | k :: v :: _ => (k, some v)

/-- Split a chunk on the line-ending pattern `/\r?\n/`: split on `'\n'` and
drop a single trailing `'\r'` from each segment. -/
def splitLines (s : List Char) : List (List Char) :=
  (splitOnChar '\n' s).map fun l =>
    match l.getLast? with
    | some '\r' => l.dropLast
    | _ => l

/-- The effective value the parser sees for key `k`: the `Map` is filled by
`progress.set(split[0], split[1])` in line order (later lines overwrite),
and `progress.get(k)` yields `undefined` both when `k` was never set and
when it was set to `undefined` (a line without `'='`). -/
def lookupLast (entries : List (List Char × Option (List Char))) (k : List Char) :
    Option (List Char) :=
  match entries.reverse.find? (fun p => p.1 = k) with
  | some p => p.2
  | none => none

/-- Decimal digit prefix of a character list. -/
def decDigits : List Char → List Char × List Char
  | [] => ([], [])
  | c :: cs =>
    if c.isDigit then
      let (ds, rest) := decDigits cs
      (c :: ds, rest)
    else ([], c :: cs)

/-- Hexadecimal digit prefix of a character list. -/
def hexDigits : List Char → List Char × List Char
  | [] => ([], [])
  | c :: cs =>
    if c.isDigit || ('a' ≤ c && c ≤ 'f') || ('A' ≤ c && c ≤ 'F') then
      let (ds, rest) := hexDigits cs
      (c :: ds, rest)
    else ([], c :: cs)

/-- Numeric value of a digit list in the given base. -/
def digitsVal (base : ℕ) (ds : List Char) : ℕ :=
  ds.foldl (fun acc c =>
    acc * base +
      (if c.isDigit then c.toNat - '0'.toNat
       else if 'a' ≤ c && c ≤ 'f' then c.toNat - 'a'.toNat + 10
       else c.toNat - 'A'.toNat + 10)) 0

/-- Leading sign: returns `true` for a negative sign, with the rest. -/
def takeSign : List Char → Bool × List Char
  | '+' :: cs => (false, cs)
  | '-' :: cs => (true, cs)
  | cs => (false, cs)

/-- ES `parseInt(string)` with no radix argument: skip whitespace, optional
sign, optional `0x`/`0X` prefix selecting base 16, then the longest digit
prefix; `NaN` when that prefix is empty. -/
def jsParseIntChars (s : List Char) : JsNum :=
  let s := s.dropWhile jsWhite
  let (neg, s) := takeSign s
  match s with
  | '0' :: x :: rest =>
    if x = 'x' || x = 'X' then
      let (ds, _) := hexDigits rest
      if ds.isEmpty then .nan
      else .num ((if neg then -1 else 1) * (digitsVal 16 ds : ℚ))
    else
      let (ds, _) := decDigits ('0' :: x :: rest)
      .num ((if neg then -1 else 1) * (digitsVal 10 ds : ℚ))
  | _ =>
    let (ds, _) := decDigits s
    if ds.isEmpty then .nan
    else .num ((if neg then -1 else 1) * (digitsVal 10 ds : ℚ))

/-- ES `parseFloat(string)`: skip whitespace, then the longest prefix that
is a decimal literal (`sign? (digits ('.' digits?)? | '.' digits)
exponent?` or `sign? Infinity`); `NaN` when no such prefix exists. -/
def jsParseFloatChars (s : List Char) : JsNum :=
  let s := s.dropWhile jsWhite
  let (neg, s) := takeSign s
  if ['I','n','f','i','n','i','t','y'].isPrefixOf s then
    .inf (!neg)
  else
    let (ip, s1) := decDigits s
    let (fp, s2) :=
      match s1 with
      | '.' :: rest => decDigits rest
      | _ => (([] : List Char), s1)
    if ip.isEmpty && fp.isEmpty then .nan
    else
      let mant : ℚ := (digitsVal 10 ip : ℚ) + (digitsVal 10 fp : ℚ) / (10 : ℚ) ^ fp.length
      let expv : ℤ :=
        match s2 with
        | e :: rest =>
          if e = 'e' || e = 'E' then
            let (eneg, rest1) := takeSign rest
            let (eds, _) := decDigits rest1
            if eds.isEmpty then 0
            else (if eneg then -1 else 1) * (digitsVal 10 eds : ℤ)
          else 0
        | [] => 0
      .num ((if neg then -1 else 1) * mant * (10 : ℚ) ^ expv)

/-- `parseInt` applied to a possibly-`undefined` map value:
`parseInt(undefined)` coerces to the string `"undefined"`, whose digit
prefix is empty, so it is `NaN`. -/
def jsParseInt : Option (List Char) → JsNum
  | none => .nan
  | some s => jsParseIntChars s

/-- `parseFloat` applied to a possibly-`undefined` map value
(`parseFloat(undefined)` is likewise `NaN`). -/
def jsParseFloat : Option (List Char) → JsNum
  | none => .nan
  | some s => jsParseFloatChars s

/-- JS `String.prototype.trim` on the whitespace the source can meet. -/
def jsTrim (s : List Char) : List Char :=
  ((s.dropWhile jsWhite).reverse.dropWhile jsWhite).reverse

/-- The `FfmpegProgress` record of the source (field names kept). -/
structure FfmpegProgress where
  frame : JsNum
  fps : JsNum
  stream_q : JsNum
  bitrate : JsNum
  total_size : JsNum
  out_time_us : JsNum
  out_time : List Char
  dup_frames : JsNum
  drop_frames : JsNum
  speed : JsNum
  progress : List Char
  deriving DecidableEq, Repr

/-- The literal prefix `frame=` the parser requires. -/
def framePrefix : List Char := ['f','r','a','m','e','=']

/-- Key `out_time`. -/
def outTimeKey : List Char := ['o','u','t','_','t','i','m','e']

/-- Key `progress`. -/
def progressKey : List Char := ['p','r','o','g','r','e','s','s']

/-- Key `frame`. -/
def frameKey : List Char := ['f','r','a','m','e']

/-- Key `fps`. -/
def fpsKey : List Char := ['f','p','s']

/-- Key `stream_0_0_q` (mapped to the `stream_q` field). -/
def streamQKey : List Char := ['s','t','r','e','a','m','_','0','_','0','_','q']

/-- Key `bitrate`. -/
def bitrateKey : List Char := ['b','i','t','r','a','t','e']

/-- Key `total_size`. -/
def totalSizeKey : List Char := ['t','o','t','a','l','_','s','i','z','e']

/-- Key `out_time_us`. -/
def outTimeUsKey : List Char := ['o','u','t','_','t','i','m','e','_','u','s']

/-- Key `dup_frames`. -/
def dupFramesKey : List Char := ['d','u','p','_','f','r','a','m','e','s']

/-- Key `drop_frames`. -/
def dropFramesKey : List Char := ['d','r','o','p','_','f','r','a','m','e','s']

/-- Key `speed`. -/
def speedKey : List Char := ['s','p','e','e','d']

/-- The key→value entries `parseProgress` builds from a chunk. -/
def progressEntries (input : List Char) : List (List Char × Option (List Char)) :=
  (splitLines input).map splitEq2

/-- The effective map value for key `k` over a whole chunk. -/
def progressLookup (input : List Char) (k : List Char) : Option (List Char) :=
  lookupLast (progressEntries input) k

/-- `parseProgress` from the source.  A chunk not starting with `frame=`
yields `undefined`.  Otherwise the object literal is evaluated field by
field; `parseInt`/`parseFloat` never throw (absent keys give `NaN`), and
the only statements that can throw inside the `try` are
`progress.get('out_time')!.trim()` and `progress.get('progress')!.trim()`
when the value is `undefined` — the `catch` then returns `undefined`. -/
def parseProgress (input : List Char) : Option FfmpegProgress :=
  if framePrefix.isPrefixOf input then
    match progressLookup input outTimeKey, progressLookup input progressKey with
    | some ot, some pr =>
      some {
        frame := jsParseInt (progressLookup input frameKey)
        fps := jsParseFloat (progressLookup input fpsKey)
        stream_q := jsParseFloat (progressLookup input streamQKey)
        bitrate := jsParseFloat (progressLookup input bitrateKey)
        total_size := jsParseInt (progressLookup input totalSizeKey)
        out_time_us := jsParseInt (progressLookup input outTimeUsKey)
        out_time := jsTrim ot
        dup_frames := jsParseInt (progressLookup input dupFramesKey)
        drop_frames := jsParseInt (progressLookup input dropFramesKey)
        speed := jsParseFloat (progressLookup input speedKey)
        progress := jsTrim pr }
    | _, _ => none
  else none

/-- Does a stderr line match the source regex `\[(panic|fatal|error)\]`?
(The regex is unanchored, so this is substring containment of one of the
three bracketed tags.) -/
def matchesSub (pat : List Char) : List Char → Bool
  | [] => pat.isEmpty
  | c :: rest => pat.isPrefixOf (c :: rest) || matchesSub pat rest

/-- The three bracketed severity tags of the stderr handler's regex. -/
def hasSeverityTag (line : List Char) : Bool :=
  matchesSub ['[','p','a','n','i','c',']'] line ||
  matchesSub ['[','f','a','t','a','l',']'] line ||
  matchesSub ['[','e','r','r','o','r',']'] line

/-- Log severities of the `PrefixLogger` calls the supervisor makes. -/
inductive LogLevel where
  | debug | warn | error
  deriving DecidableEq, Repr

/-- Why the ready callback is invoked with an `Error` (the source builds the
message strings `'FFmpeg process creation failed'` and
`'FFmpeg exited with code: ' + code + ' and signal: ' + signal`). -/
inductive CbError where
  | spawnFailed
  | exited (code : Option ℤ) (signal : Option String)
  deriving DecidableEq, Repr

/-- One observable effect of an event handler, in emission order. -/
inductive Effect where
  /-- the one-shot latency log, message
  `Getting the first frames took {seconds} seconds.` -/
  | logFirstFrames (lvl : LogLevel) (seconds : ℚ)
  /-- a stderr line logged verbatim -/
  | logStderr (lvl : LogLevel) (line : List Char)
  /-- error log `FFmpeg process creation failed: {msg}` -/
  | logSpawnFailed (msg : String)
  /-- log `FFmpeg exited with code: {code} and signal: {signal} {suffix}`
  where `suffix` is `(Expected)`, `(Forced)`, `(Unexpected)` or `(Error)` -/
  | logExit (lvl : LogLevel) (suffix : String)
  /-- the ready callback invoked with no argument -/
  | callbackOk
  /-- the ready callback invoked with an `Error` -/
  | callbackErr (why : CbError)
  /-- `delegate.stopStream(sessionId)` -/
  | stopStream
  /-- `delegate.forceStopStream(sessionId)` -/
  | forceStopStream
  /-- a write to the subprocess's stdin -/
  | writeStdin (s : String)
  /-- `setTimeout(.., ms)` arming the forced-kill timer -/
  | armKillTimer (ms : ℕ)
  /-- `this.process.kill('SIGKILL')` -/
  | killSignal
  deriving DecidableEq, Repr

/-- Construction inputs that the handlers read (the spawned command itself
is outside the model): the `debug` flag, `os.EOL`, and the `startTime`
captured by `Date.now()` at launch (milliseconds, rational to express the
division by 1000 exactly). -/
structure SupConfig where
  debug : Bool
  eol : String
  startTime : ℚ
  deriving DecidableEq, Repr

/-- The mutable state the handlers close over. `clearTimeout` cancels the
pending timer but the `this.killTimeout` field keeps its (truthy) value,
so the field and the pending-ness are tracked separately.  `callback`
records whether the ready callback is still held; only the stderr handler
sets `callback = undefined`.  `killed` is `this.process.killed`, set only
by `process.kill`. -/
structure SupState where
  started : Bool
  callback : Bool
  killTimerField : Bool
  killTimerPending : Bool
  killed : Bool
  deriving DecidableEq, Repr

/-- The supervisor state after construction with a ready callback. -/
def initState : SupState :=
  { started := false, callback := true, killTimerField := false,
    killTimerPending := false, killed := false }

/-- One event delivered to the supervisor by the event loop. -/
inductive SupEvent where
  /-- a stdout `data` chunk; `now` is `Date.now()` at delivery -/
  | stdoutData (now : ℚ) (data : List Char)
  /-- one stderr line from the readline interface -/
  | stderrLine (line : List Char)
  /-- the process `error` event -/
  | procError (msg : String)
  /-- the process `exit` event (`code` is `null` on signal death) -/
  | procExit (code : Option ℤ) (signal : Option String)
  /-- a call to `stop()` -/
  | stopCall
  /-- the armed forced-kill timer fires (a canceled or absent timer never
  fires, so the event is a no-op unless `killTimerPending`) -/
  | killTimerFire
  deriving DecidableEq, Repr

/-- One step of the supervisor: the handler the source installs for the
event, returning the new state and the effects in program order. -/
def step (cfg : SupConfig) (s : SupState) : SupEvent → SupState × List Effect
  | .stdoutData now data =>
    match parseProgress data with
    | some progress =>
      if !s.started && progress.frame.gtZero then
        let runtime := (now - cfg.startTime) / 1000
        let lvl := if runtime < 5 then LogLevel.debug
                   else if runtime < 22 then LogLevel.warn
                   else LogLevel.error
        ({ s with started := true }, [.logFirstFrames lvl runtime])
      else (s, [])
    | none => (s, [])
  | .stderrLine line =>
    let (s1, cbActs) :=
      if s.callback then ({ s with callback := false }, [Effect.callbackOk])
      else (s, [])
    let logActs :=
      if cfg.debug && hasSeverityTag line then [Effect.logStderr .error line]
      else if cfg.debug then [Effect.logStderr .debug line]
      else []
    (s1, cbActs ++ logActs)
  | .procError msg =>
    let cbActs := if s.callback then [Effect.callbackErr .spawnFailed] else []
    (s, Effect.logSpawnFailed msg :: cbActs ++ [Effect.stopStream])
  | .procExit code signal =>
    let s1 := { s with killTimerPending := false }
    if s1.killTimerField && code = some 0 then
      (s1, [.logExit .debug "(Expected)"])
    else if code = none || code = some 255 then
      if s1.killed then (s1, [.logExit .debug "(Forced)"])
      else (s1, [.logExit .error "(Unexpected)"])
    else
      let tailActs :=
        if !s1.started && s1.callback then [Effect.callbackErr (.exited code signal)]
        else [Effect.forceStopStream]
      (s1, Effect.logExit .error "(Error)" :: Effect.stopStream :: tailActs)
  | .stopCall =>
    ({ s with killTimerField := true, killTimerPending := true },
     [.writeStdin ("q" ++ cfg.eol), .armKillTimer (2 * 1000)])
  | .killTimerFire =>
    if s.killTimerPending then
      ({ s with killTimerPending := false, killed := true }, [.killSignal])
    else (s, [])

/-- Deliver a list of events in order, concatenating the emitted actions. -/
def runEvents (cfg : SupConfig) (s : SupState) : List SupEvent → SupState × List Effect
  | [] => (s, [])
  | e :: es =>
    let (s1, a1) := step cfg s e
    let (s2, a2) := runEvents cfg s1 es
    (s2, a1 ++ a2)

/-- Is an action an invocation of the ready callback (with or without an
error)? -/
def Effect.isCallback : Effect → Bool
  | .callbackOk => true
  | .callbackErr _ => true
  | _ => false

/-- Number of ready-callback invocations in an action list. -/
def countCallbackActs (as : List Effect) : ℕ :=
  (as.filter Effect.isCallback).length

/-- Is an action the one-shot first-frames latency log? -/
def Effect.isFirstFrames : Effect → Bool
  | .logFirstFrames _ _ => true
  | _ => false

/-- Number of first-frames latency logs in an action list. -/
def countFirstFrames (as : List Effect) : ℕ :=
  (as.filter Effect.isFirstFrames).length

/-- Is an action a log call (of any level)? -/
def Effect.isLog : Effect → Bool
  | .logFirstFrames _ _ => true
  | .logStderr _ _ => true
  | .logSpawnFailed _ => true
  | .logExit _ _ => true
  | _ => false

/-- The well-formed progress block of the spec's first testable property. -/
def wellFormedBlock : List Char :=
  ("frame=10\nfps=25.0\nstream_0_0_q=28.0\nbitrate=512.3\ntotal_size=10240\n" ++
   "out_time_us=400000\nout_time=00:00:00.40\ndup_frames=0\ndrop_frames=0\n" ++
   "speed=1.0\nprogress=continue\n").data

/-- A chunk that starts with `frame=` but has no `speed=` line. -/
def noSpeedBlock : List Char :=
  "frame=10\nout_time=00:00:00.40\nprogress=continue\n".data

/-- A chunk that starts with `frame=` but has neither an `fps=` nor a
`speed=` line. -/
def noFpsNoSpeedBlock : List Char :=
  "frame=3\nout_time=00:00:01.00\nprogress=end\n".data

/-- A chunk whose `out_time` line holds a second `=` inside the value. -/
def doubleEqBlock : List Char :=
  "frame=5\nout_time=a=b\nprogress=continue\n".data

/-- A chunk whose `frame` line appears twice with different values. -/
def dupFrameBlock : List Char :=
  "frame=1\nframe=7\nout_time=t\nprogress=p\n".data

/-- A configuration with debug off, Unix line terminator, launch at time 0. -/
def sampleConfig : SupConfig := { debug := false, eol := "\n", startTime := 0 }

/-- A configuration with debug on. -/
def debugConfig : SupConfig := { debug := true, eol := "\n", startTime := 0 }

/-- A state whose ready callback has already been consumed. -/
def consumedState : SupState := { initState with callback := false }

/-- A state in which this supervisor has sent the kill signal. -/
def killedState : SupState :=
  { initState with callback := false, killTimerField := true, killed := true }

/-- A state whose forced-kill timer is armed and pending. -/
def armedState : SupState :=
  { initState with killTimerField := true, killTimerPending := true }

/-- The report `parseProgress` produces for `dupFrameBlock`. -/
def dupFrameReport : FfmpegProgress :=
  { frame := .num 7, fps := .nan, stream_q := .nan, bitrate := .nan,
    total_size := .nan, out_time_us := .nan, out_time := ['t'],
    dup_frames := .nan, drop_frames := .nan, speed := .nan,
    progress := ['p'] }

/-! ### Helper lemmas about the splitting primitives -/

theorem splitOnChar_ne_nil (sep : Char) (l : List Char) : splitOnChar sep l ≠ [] := by
  cases l with
  | nil => simp [splitOnChar]
  | cons c cs =>
    simp only [splitOnChar]
    split
    · simp
    · split <;> simp

theorem splitOnChar_not_mem (sep : Char) (l : List Char) (h : sep ∉ l) :
    splitOnChar sep l = [l] := by
  induction l with
  | nil => simp [splitOnChar]
  | cons c cs ih =>
    have hc : ¬c = sep := fun hcs => h (hcs ▸ List.mem_cons_self c cs)
    have hcs : sep ∉ cs := fun hm => h (List.mem_cons_of_mem c hm)
    simp [splitOnChar, hc, ih hcs]

theorem splitOnChar_append (sep : Char) (a b : List Char) (h : sep ∉ a) :
    splitOnChar sep (a ++ sep :: b) = a :: splitOnChar sep b := by
  induction a with
  | nil => simp [splitOnChar]
  | cons c cs ih =>
    have hc : ¬c = sep := fun hcs => h (hcs ▸ List.mem_cons_self c cs)
    have hcs : sep ∉ cs := fun hm => h (List.mem_cons_of_mem c hm)
    simp only [List.cons_append, splitOnChar, hc, if_false, List.append_eq, ih hcs]

theorem lookupLast_append_last (es : List (List Char × Option (List Char)))
    (k : List Char) (v : Option (List Char)) :
    lookupLast (es ++ [(k, v)]) k = v := by
  simp [lookupLast, List.find?]

/-! ### Claims about `parseProgress` -/

/-- C6: parsing the specific well-formed eleven-line block yields a
`ProgressReport` with `frame = 10`, `fps = 25.0`, `stream_q = 28.0`,
`bitrate = 512.3`, `total_size = 10240`, `out_time_us = 400000`,
`out_time = "00:00:00.40"`, `dup_frames = 0`, `drop_frames = 0`,
`speed = 1.0` and `progress = "continue"`. -/
theorem parseProgress_wellFormed_block :
    parseProgress wellFormedBlock = some {
      frame := .num 10, fps := .num 25, stream_q := .num 28,
      bitrate := .num (5123 / 10), total_size := .num 10240,
      out_time_us := .num 400000, out_time := "00:00:00.40".data,
      dup_frames := .num 0, drop_frames := .num 0, speed := .num 1,
      progress := "continue".data } := by decide

/-- C1 counterexample: `noSpeedBlock` begins with `frame=` and has no
`speed=` line, yet `parseProgress` returns a report (with `NaN` numeric
fields) instead of the "no report" the claim requires: `parseInt` /
`parseFloat` of a missing value give `NaN` without throwing, so the parse
is not all-or-nothing over the numeric keys. -/
theorem parseProgress_missing_speed_still_reports :
    framePrefix.isPrefixOf noSpeedBlock = true
    ∧ progressLookup noSpeedBlock speedKey = none
    ∧ parseProgress noSpeedBlock = some {
        frame := .num 10, fps := .nan, stream_q := .nan, bitrate := .nan,
        total_size := .nan, out_time_us := .nan,
        out_time := "00:00:00.40".data, dup_frames := .nan,
        drop_frames := .nan, speed := .nan,
        progress := "continue".data } := by decide

/-- C1 amended: on a chunk beginning with `frame=`, the parse fails (yields
"no report") exactly when the `out_time` or `progress` value is missing —
those are the only fields whose extraction (`.trim()` on `undefined`) can
throw; a missing or unparseable numeric field yields `NaN` in an otherwise
filled report rather than failing the whole parse. -/
theorem parseProgress_failure_boundary (input : List Char)
    (h : framePrefix.isPrefixOf input = true) :
    parseProgress input = none ↔
      progressLookup input outTimeKey = none
      ∨ progressLookup input progressKey = none := by
  unfold parseProgress
  rw [if_pos h]
  cases progressLookup input outTimeKey <;>
    cases progressLookup input progressKey <;> simp

theorem parseProgress_failure_boundary_witness :
    parseProgress noSpeedBlock = none ↔
      progressLookup noSpeedBlock outTimeKey = none
      ∨ progressLookup noSpeedBlock progressKey = none :=
  parseProgress_failure_boundary noSpeedBlock (by decide)

/-- C7 counterexample: in `doubleEqBlock` the line `out_time=a=b` is split
by `line.split('=', 2)`, which truncates to the first two segments, so the
stored value is `a` — the `=b` after the first `=` is dropped, contradicting
the claim that the value keeps any `=` characters after the first. -/
theorem split_value_truncated :
    parseProgress doubleEqBlock = some {
      frame := .num 5, fps := .nan, stream_q := .nan, bitrate := .nan,
      total_size := .nan, out_time_us := .nan, out_time := ['a'],
      dup_frames := .nan, drop_frames := .nan, speed := .nan,
      progress := "continue".data }
    ∧ (['a'] : List Char) ≠ "a=b".data := by decide

/-- C7 amended: each line is split on `=` into at most two parts, the value
being the text between the first and second `=` (anything after a second
`=` is discarded, per the truncating JS `split` limit); when the same key
occurs on several lines the later value overwrites the earlier one
(last-write-wins), e.g. a duplicated `frame` line makes the report carry
the second value. -/
theorem split_first_two_last_write (k v1 v2 : List Char)
    (hk : '=' ∉ k) (hv : '=' ∉ v1) :
    splitEq2 (k ++ '=' :: (v1 ++ '=' :: v2)) = (k, some v1)
    ∧ (∀ (es : List (List Char × Option (List Char))) (key : List Char)
         (v : Option (List Char)), lookupLast (es ++ [(key, v)]) key = v)
    ∧ (parseProgress dupFrameBlock).map FfmpegProgress.frame
        = some (JsNum.num 7) := by
  refine ⟨?_, fun es key v => lookupLast_append_last es key v, by decide⟩
  rw [splitEq2, splitOnChar_append '=' k _ hk, splitOnChar_append '=' v1 v2 hv]

theorem split_first_two_last_write_witness :
    splitEq2 ("speed".data ++ '=' :: ("1".data ++ '=' :: "junk".data))
      = ("speed".data, some "1".data)
    ∧ (∀ (es : List (List Char × Option (List Char))) (key : List Char)
         (v : Option (List Char)), lookupLast (es ++ [(key, v)]) key = v)
    ∧ (parseProgress dupFrameBlock).map FfmpegProgress.frame
        = some (JsNum.num 7) :=
  split_first_two_last_write "speed".data "1".data "junk".data
    (by decide) (by decide)

/-- C10: `parseProgress` is total (it returns a report or "no report", the
`catch` swallowing the only possible exception); on a chunk beginning with
`frame=` it succeeds exactly when both the `out_time` and `progress` values
are present, and a report produced without a `speed` or `fps` value carries
`NaN` in that field. -/
theorem parseProgress_total_boundary_nan (input : List Char)
    (h : framePrefix.isPrefixOf input = true) :
    ((parseProgress input).isSome ↔
      (progressLookup input outTimeKey).isSome
      ∧ (progressLookup input progressKey).isSome)
    ∧ (∀ r, parseProgress input = some r →
        (progressLookup input speedKey = none → r.speed = .nan)
        ∧ (progressLookup input fpsKey = none → r.fps = .nan)) := by
  unfold parseProgress
  rw [if_pos h]
  cases progressLookup input outTimeKey <;>
    cases progressLookup input progressKey <;>
      constructor <;>
        simp +contextual [jsParseFloat]

theorem parseProgress_total_boundary_nan_witness :
    ((parseProgress noFpsNoSpeedBlock).isSome ↔
      (progressLookup noFpsNoSpeedBlock outTimeKey).isSome
      ∧ (progressLookup noFpsNoSpeedBlock progressKey).isSome)
    ∧ (∀ r, parseProgress noFpsNoSpeedBlock = some r →
        (progressLookup noFpsNoSpeedBlock speedKey = none → r.speed = .nan)
        ∧ (progressLookup noFpsNoSpeedBlock fpsKey = none → r.fps = .nan)) :=
  parseProgress_total_boundary_nan noFpsNoSpeedBlock (by decide)

/-! ### Helper lemmas about the supervisor step function -/

theorem countCallbackActs_append (a b : List Effect) :
    countCallbackActs (a ++ b) = countCallbackActs a + countCallbackActs b := by
  simp [countCallbackActs]

theorem countFirstFrames_append (a b : List Effect) :
    countFirstFrames (a ++ b) = countFirstFrames a + countFirstFrames b := by
  simp [countFirstFrames]

theorem step_started_mono (cfg : SupConfig) (s : SupState) (e : SupEvent)
    (h : s.started = true) : (step cfg s e).1.started = true := by
  cases e with
  | stdoutData now data =>
    cases hp : parseProgress data with
    | none => simp [step, hp, h]
    | some p => simp [step, hp, h]
  | stderrLine line => by_cases hc : s.callback <;> simp [step, hc, h]
  | procError msg => simp [step, h]
  | procExit code signal =>
    simp only [step]
    repeat' split
    all_goals simp [h]
  | stopCall => simp [step, h]
  | killTimerFire => by_cases hk : s.killTimerPending <;> simp [step, hk, h]

theorem step_cb_consumed (cfg : SupConfig) (s : SupState) (e : SupEvent)
    (h : s.callback = false) :
    countCallbackActs (step cfg s e).2 = 0 ∧ (step cfg s e).1.callback = false := by
  cases e with
  | stdoutData now data =>
    cases hp : parseProgress data with
    | none => simp [step, hp, h, countCallbackActs]
    | some p =>
      by_cases hs : (!s.started && p.frame.gtZero) = true <;>
        simp [step, hp, hs, h, countCallbackActs, Effect.isCallback]
  | stderrLine line =>
    simp only [step, h, if_false, Bool.false_eq_true]
    split_ifs <;> simp [countCallbackActs, Effect.isCallback, h]
  | procError msg => simp [step, h, countCallbackActs, Effect.isCallback]
  | procExit code signal =>
    simp only [step]
    split
    · simp [h, countCallbackActs, Effect.isCallback]
    · split
      · split <;> simp [h, countCallbackActs, Effect.isCallback]
      · simp [h, countCallbackActs, Effect.isCallback]
  | stopCall => simp [step, h, countCallbackActs, Effect.isCallback]
  | killTimerFire =>
    by_cases hk : s.killTimerPending <;>
      simp [step, hk, h, countCallbackActs, Effect.isCallback]

theorem run_cb_consumed (cfg : SupConfig) (evs : List SupEvent) (s : SupState)
    (h : s.callback = false) :
    countCallbackActs (runEvents cfg s evs).2 = 0 := by
  induction evs generalizing s with
  | nil => simp [runEvents, countCallbackActs]
  | cons e es ih =>
    simp only [runEvents, countCallbackActs_append]
    have hs := step_cb_consumed cfg s e h
    rw [hs.1, ih _ hs.2]

theorem step_cb_le_one (cfg : SupConfig) (s : SupState) (e : SupEvent) :
    countCallbackActs (step cfg s e).2 ≤ 1 := by
  cases e with
  | stdoutData now data =>
    cases hp : parseProgress data with
    | none => simp [step, hp, countCallbackActs]
    | some p =>
      simp only [step, hp]
      split <;> simp [countCallbackActs, Effect.isCallback]
  | stderrLine line =>
    simp only [step]
    repeat' split
    all_goals simp [countCallbackActs, Effect.isCallback]
  | procError msg =>
    simp only [step]
    split <;> simp [countCallbackActs, Effect.isCallback]
  | procExit code signal =>
    simp only [step]
    repeat' split
    all_goals simp [countCallbackActs, Effect.isCallback]
  | stopCall => simp [step, countCallbackActs, Effect.isCallback]
  | killTimerFire =>
    simp only [step]
    split <;> simp [countCallbackActs, Effect.isCallback]

theorem step_ff_started (cfg : SupConfig) (s : SupState) (e : SupEvent)
    (h : s.started = true) : countFirstFrames (step cfg s e).2 = 0 := by
  cases e with
  | stdoutData now data =>
    cases hp : parseProgress data with
    | none => simp [step, hp, countFirstFrames]
    | some p => simp [step, hp, h, countFirstFrames]
  | stderrLine line =>
    simp only [step]
    repeat' split
    all_goals simp [countFirstFrames, Effect.isFirstFrames]
  | procError msg =>
    simp only [step]
    split <;> simp [countFirstFrames, Effect.isFirstFrames]
  | procExit code signal =>
    simp only [step]
    repeat' split
    all_goals simp [countFirstFrames, Effect.isFirstFrames]
  | stopCall => simp [step, countFirstFrames, Effect.isFirstFrames]
  | killTimerFire =>
    simp only [step]
    split <;> simp [countFirstFrames, Effect.isFirstFrames]

theorem step_ff_cases (cfg : SupConfig) (s : SupState) (e : SupEvent) :
    countFirstFrames (step cfg s e).2 = 0
    ∨ (countFirstFrames (step cfg s e).2 = 1 ∧ (step cfg s e).1.started = true) := by
  cases e with
  | stdoutData now data =>
    cases hp : parseProgress data with
    | none => simp [step, hp, countFirstFrames]
    | some p =>
      simp only [step, hp]
      split <;> simp [countFirstFrames, Effect.isFirstFrames]
  | stderrLine line =>
    simp only [step]
    repeat' split
    all_goals simp [countFirstFrames, Effect.isFirstFrames]
  | procError msg =>
    simp only [step]
    split <;> simp [countFirstFrames, Effect.isFirstFrames]
  | procExit code signal =>
    simp only [step]
    repeat' split
    all_goals simp [countFirstFrames, Effect.isFirstFrames]
  | stopCall => simp [step, countFirstFrames, Effect.isFirstFrames]
  | killTimerFire =>
    simp only [step]
    split <;> simp [countFirstFrames, Effect.isFirstFrames]

theorem run_started_mono (cfg : SupConfig) (evs : List SupEvent) (s : SupState)
    (h : s.started = true) : (runEvents cfg s evs).1.started = true := by
  induction evs generalizing s with
  | nil => simpa [runEvents]
  | cons e es ih => simpa [runEvents] using ih _ (step_started_mono cfg s e h)

theorem run_ff_started (cfg : SupConfig) (evs : List SupEvent) (s : SupState)
    (h : s.started = true) : countFirstFrames (runEvents cfg s evs).2 = 0 := by
  induction evs generalizing s with
  | nil => simp [runEvents, countFirstFrames]
  | cons e es ih =>
    simp only [runEvents, countFirstFrames_append]
    rw [step_ff_started cfg s e h, ih _ (step_started_mono cfg s e h)]

theorem run_ff_bound (cfg : SupConfig) (evs : List SupEvent) (s : SupState) :
    countFirstFrames (runEvents cfg s evs).2 ≤ 1 := by
  induction evs generalizing s with
  | nil => simp [runEvents, countFirstFrames]
  | cons e es ih =>
    simp only [runEvents, countFirstFrames_append]
    rcases step_ff_cases cfg s e with h0 | ⟨h1, hst⟩
    · rw [h0]; simpa using ih (step cfg s e).1
    · rw [h1, run_ff_started cfg es _ hst]

/-! ### Claims about the supervisor -/

/-- C2 counterexample: the ready callback is invoked twice in one
supervisor lifetime.  A non-zero/non-255 exit before `started` invokes the
pending callback with an error but does not discard it (the `exit` handler
never sets `callback = undefined`), so a stderr line delivered after the
exit event — possible, since stdio data may still flush after `exit` —
invokes it a second time. -/
theorem callback_invoked_twice :
    countCallbackActs (runEvents sampleConfig initState
      [.procExit (some 2) (some "SIGX"), .stderrLine ['h','i']]).2 = 2 := by
  decide

/-- C2 amended: each single event invokes the ready callback at most once,
and only the stderr handler discards it (after a stderr line the callback
is always cleared, and from a cleared state no later event ever invokes
it); the process-error and pre-started exit paths invoke the callback
without discarding it, so it can be invoked again by a later stderr
line. -/
theorem callback_discard_discipline (cfg : SupConfig) (s : SupState)
    (e : SupEvent) :
    countCallbackActs (step cfg s e).2 ≤ 1
    ∧ (s.callback = false →
        countCallbackActs (step cfg s e).2 = 0
        ∧ (step cfg s e).1.callback = false)
    ∧ (∀ line, (step cfg s (.stderrLine line)).1.callback = false)
    ∧ (∀ evs, s.callback = false →
        countCallbackActs (runEvents cfg s evs).2 = 0) := by
  refine ⟨step_cb_le_one cfg s e, fun h => step_cb_consumed cfg s e h, ?_,
    fun evs h => run_cb_consumed cfg evs s h⟩
  intro line
  by_cases hc : s.callback = true
  · simp [step, hc]
  · simp only [Bool.not_eq_true] at hc
    simp [step, hc]

theorem callback_discard_discipline_witness :
    countCallbackActs (step sampleConfig consumedState .stopCall).2 = 0
    ∧ (step sampleConfig consumedState .stopCall).1.callback = false :=
  (callback_discard_discipline sampleConfig consumedState .stopCall).2.1 rfl

/-- C3: on exit with a non-zero, non-255 code the handler logs `(Error)`
and calls `stopStream`; before `started` with the callback pending it then
invokes the callback with the exit error and does not call
`forceStopStream`, while after `started` it calls `forceStopStream` and
does not touch the callback. -/
theorem exit_error_code_classification (cfg : SupConfig) (s : SupState)
    (code : ℤ) (sig : Option String) (h0 : code ≠ 0) (h255 : code ≠ 255) :
    (s.started = false → s.callback = true →
      (step cfg s (.procExit (some code) sig)).2
        = [.logExit .error "(Error)", .stopStream,
           .callbackErr (.exited (some code) sig)])
    ∧ (s.started = true →
      (step cfg s (.procExit (some code) sig)).2
        = [.logExit .error "(Error)", .stopStream, .forceStopStream]) := by
  constructor
  · intro hs hc
    simp [step, h0, h255, hs, hc]
  · intro hs
    simp [step, h0, h255, hs]

theorem exit_error_code_classification_witness :
    ((step sampleConfig initState (.procExit (some 2) none)).2
      = [.logExit .error "(Error)", .stopStream,
         .callbackErr (.exited (some 2) none)]) :=
  (exit_error_code_classification sampleConfig initState 2 none
    (by decide) (by decide)).1 rfl rfl

/-- C4: `stop()` writes exactly one graceful-quit command `q` + `os.EOL`
to stdin and arms the 2000 ms forced-kill timer; a subsequent self-exit
with code 0 cancels the pending timer and logs only the debug-level
`(Expected)` message (in particular no kill signal), a canceled timer
never fires, and a still-pending timer fires the non-catchable SIGKILL. -/
theorem stop_graceful_then_kill_contract (cfg : SupConfig) (s s' : SupState)
    (sig : Option String) :
    (step cfg s .stopCall).2
        = [.writeStdin ("q" ++ cfg.eol), .armKillTimer (2 * 1000)]
    ∧ (step cfg s .stopCall).1.killTimerPending = true
    ∧ (step cfg (step cfg s .stopCall).1 (.procExit (some 0) sig)).2
        = [.logExit .debug "(Expected)"]
    ∧ (step cfg (step cfg s .stopCall).1 (.procExit (some 0) sig)).1.killTimerPending
        = false
    ∧ (s'.killTimerPending = false → (step cfg s' .killTimerFire).2 = [])
    ∧ (s'.killTimerPending = true →
        (step cfg s' .killTimerFire).2 = [.killSignal]
        ∧ (step cfg s' .killTimerFire).1.killed = true) := by
  refine ⟨rfl, rfl, by simp [step], by simp [step], ?_, ?_⟩
  · intro h; simp [step, h]
  · intro h; simp [step, h]

theorem stop_graceful_then_kill_contract_witness :
    (step sampleConfig initState .killTimerFire).2 = []
    ∧ ((step sampleConfig armedState .killTimerFire).2 = [.killSignal]
       ∧ (step sampleConfig armedState .killTimerFire).1.killed = true) :=
  ⟨(stop_graceful_then_kill_contract sampleConfig initState initState
      none).2.2.2.2.1 rfl,
   (stop_graceful_then_kill_contract sampleConfig initState armedState
      none).2.2.2.2.2 rfl⟩

/-- C5: the first parsed report with `frame > 0` flips `started` and emits
exactly one latency log with the elapsed seconds `(now - startTime)/1000`,
at debug level for t < 5, warning level for 5 ≤ t < 22 and error level for
t ≥ 22; a report with `frame ≤ 0` (or `NaN`) changes nothing, once
`started` the handler never logs again, and any event sequence emits at
most one such log. -/
theorem first_frames_latency_classification (cfg : SupConfig) (s : SupState)
    (now : ℚ) (data : List Char) (p : FfmpegProgress)
    (hp : parseProgress data = some p) :
    (s.started = false → p.frame.gtZero = true →
      (step cfg s (.stdoutData now data)).1.started = true
      ∧ ∃ lvl, (step cfg s (.stdoutData now data)).2
            = [.logFirstFrames lvl ((now - cfg.startTime) / 1000)]
          ∧ ((now - cfg.startTime) / 1000 < 5 → lvl = .debug)
          ∧ (5 ≤ (now - cfg.startTime) / 1000 →
              (now - cfg.startTime) / 1000 < 22 → lvl = .warn)
          ∧ (22 ≤ (now - cfg.startTime) / 1000 → lvl = .error))
    ∧ (p.frame.gtZero = false → step cfg s (.stdoutData now data) = (s, []))
    ∧ (s.started = true → step cfg s (.stdoutData now data) = (s, []))
    ∧ (∀ evs, countFirstFrames (runEvents cfg s evs).2 ≤ 1) := by
  refine ⟨?_, ?_, ?_, fun evs => run_ff_bound cfg evs s⟩
  · intro hs hg
    constructor
    · simp [step, hp, hs, hg]
    · refine ⟨if (now - cfg.startTime) / 1000 < 5 then .debug
        else if (now - cfg.startTime) / 1000 < 22 then .warn else .error,
        ?_, ?_, ?_, ?_⟩
      · simp [step, hp, hs, hg]
      · intro h5; rw [if_pos h5]
      · intro h5 h22; rw [if_neg (by linarith), if_pos h22]
      · intro h22; rw [if_neg (by linarith), if_neg (by linarith)]
  · intro hg; simp [step, hp, hg]
  · intro hs; simp [step, hp, hs]

theorem first_frames_latency_classification_witness :
    (step sampleConfig initState (.stdoutData 6000 dupFrameBlock)).1.started
        = true
    ∧ ∃ lvl, (step sampleConfig initState (.stdoutData 6000 dupFrameBlock)).2
          = [.logFirstFrames lvl ((6000 - sampleConfig.startTime) / 1000)]
        ∧ ((6000 - sampleConfig.startTime) / 1000 < 5 → lvl = .debug)
        ∧ (5 ≤ (6000 - sampleConfig.startTime) / 1000 →
            (6000 - sampleConfig.startTime) / 1000 < 22 → lvl = .warn)
        ∧ (22 ≤ (6000 - sampleConfig.startTime) / 1000 → lvl = .error) :=
  (first_frames_latency_classification sampleConfig initState 6000
    dupFrameBlock dupFrameReport (by decide)).1 rfl rfl

/-- C8 counterexample: after a graceful stop (so "a forced or graceful
stop was issued"), an exit with code 255 is logged at error level as
`(Unexpected)`, not at debug level as `(Forced)`: the handler tests
`process.killed`, which only `process.kill` (the fired timer) sets, not
the graceful `q` write. -/
theorem exit255_after_graceful_stop_unexpected :
    (runEvents sampleConfig initState
      [.stopCall, .procExit (some 255) none]).2
      = [.writeStdin "q\n", .armKillTimer 2000,
         .logExit .error "(Unexpected)"] := by decide

/-- C8 amended: for an exit whose code is absent or 255, the exit is
logged at debug level as `(Forced)` exactly when this supervisor had sent
the kill signal (`process.killed`); otherwise — including after a merely
graceful stop — it is logged at error level as `(Unexpected)`; in neither
case is any delegate stop method called. -/
theorem exit_killed_classification (cfg : SupConfig) (s : SupState)
    (code : Option ℤ) (sig : Option String)
    (h : code = none ∨ code = some 255) :
    (s.killed = true →
      (step cfg s (.procExit code sig)).2 = [.logExit .debug "(Forced)"])
    ∧ (s.killed = false →
      (step cfg s (.procExit code sig)).2 = [.logExit .error "(Unexpected)"])
    ∧ Effect.stopStream ∉ (step cfg s (.procExit code sig)).2
    ∧ Effect.forceStopStream ∉ (step cfg s (.procExit code sig)).2 := by
  refine ⟨fun hk => ?_, fun hk => ?_, ?_, ?_⟩
  · rcases h with h | h <;> simp [step, h, hk]
  · rcases h with h | h <;> simp [step, h, hk]
  · rcases h with h | h <;> by_cases hk : s.killed = true <;>
      simp_all [step, h]
  · rcases h with h | h <;> by_cases hk : s.killed = true <;>
      simp_all [step, h]

theorem exit_killed_classification_witness :
    ((step sampleConfig killedState (.procExit none none)).2
      = [.logExit .debug "(Forced)"]) :=
  (exit_killed_classification sampleConfig killedState none none
    (Or.inl rfl)).1 rfl

/-- C9: a stderr line matching `[panic]`, `[fatal]` or `[error]` is logged
at error level when debug mode is on; with debug off a stderr line
produces no log action at all; in both modes a pending ready callback is
invoked with no argument and cleared, and a consumed callback is never
invoked again. -/
theorem stderr_line_contract (cfg : SupConfig) (s : SupState)
    (line : List Char) :
    (cfg.debug = true → hasSeverityTag line = true →
      (step cfg s (.stderrLine line)).2
        = (if s.callback then [Effect.callbackOk] else [])
          ++ [.logStderr .error line])
    ∧ (cfg.debug = false →
      (step cfg s (.stderrLine line)).2
        = if s.callback then [Effect.callbackOk] else [])
    ∧ (s.callback = true →
      Effect.callbackOk ∈ (step cfg s (.stderrLine line)).2
      ∧ (step cfg s (.stderrLine line)).1.callback = false)
    ∧ (s.callback = false →
      countCallbackActs (step cfg s (.stderrLine line)).2 = 0) := by
  by_cases hc : s.callback = true
  · refine ⟨fun hd ht => ?_, fun hd => ?_, fun _ => ?_, fun hf => ?_⟩
    · simp [step, hc, hd, ht]
    · simp [step, hc, hd]
    · constructor
      · by_cases hd : cfg.debug = true <;>
          by_cases ht : hasSeverityTag line = true <;>
            simp_all [step, hc]
      · simp [step, hc]
    · rw [hf] at hc; cases hc
  · simp only [Bool.not_eq_true] at hc
    refine ⟨fun hd ht => ?_, fun hd => ?_, fun ht => ?_, fun _ => ?_⟩
    · simp [step, hc, hd, ht]
    · simp [step, hc, hd]
    · rw [ht] at hc; cases hc
    · by_cases hd : cfg.debug = true <;>
        by_cases ht : hasSeverityTag line = true <;>
          simp_all [step, hc, countCallbackActs, Effect.isCallback]

theorem stderr_line_contract_witness :
    (step debugConfig initState (.stderrLine ('x' :: ' ' :: "[error] y".data))).2
      = [Effect.callbackOk,
         .logStderr .error ('x' :: ' ' :: "[error] y".data)] :=
  (stderr_line_contract debugConfig initState
    ('x' :: ' ' :: "[error] y".data)).1 rfl (by decide)
